import Mathlib

/-!
Shallow embedding of the `orderbook` package of clary-work01/crpyto_exchange
(file `orderbook/orderbook.go`).  Prices and quantities (`float64` in Go)
are modelled as exact integers (think of fixed-point units); the only
arithmetic the engine performs is `+`, `-`, `min` and order comparisons,
which behave identically over any ordered field or ring, so nothing in the
claims depends on fractional values.  Pointer-valued `*Order` and `*PriceLevel` objects are modelled by
natural-number references into append-only stores, so aliasing between the
heaps, the price-lookup maps and the order index behaves as in Go.  Calls
that can panic in Go (`container/heap.Pop` on an empty heap) are modelled in
an `Except String` monad; the matching loops take a fuel parameter and
report `"fuel"` on exhaustion (the Go loops make strictly decreasing
progress, so any sufficiently large fuel reproduces the Go run).
-/

set_option maxRecDepth 4000

namespace Exch

/-- Go `OrderSide`. -/
inductive OrderSide where
  | Bid
  | Ask
deriving DecidableEq, Repr

/-- Go `OrderType`. -/
inductive OrderType where
  | Limit
  | Market
deriving DecidableEq, Repr

/-- Go `OrderStatus`. -/
inductive OrderStatus where
  | Pending
  | Filled
  | Partial
  | Cancelled
deriving DecidableEq, Repr

/-- Go `Order` (the `Symbol` and `Timestamp` fields play no role in any
matching, cancellation or query logic and are omitted). -/
structure Order where
  id : String
  side : OrderSide
  otype : OrderType
  status : OrderStatus
  price : ℤ
  quantity : ℤ
  filledQuantity : ℤ
deriving DecidableEq, Repr

/-- Go `(*Order).Remaining`. -/
def Order.remaining (o : Order) : ℤ := o.quantity - o.filledQuantity

/-- Go `(*Order).IsFilled`: `FilledQuantity >= Quantity`. -/
def Order.isFilled (o : Order) : Bool := decide (o.filledQuantity ≥ o.quantity)

/-- Go `Trade` (the minted `ID` string and `Timestamp`, which come from the
wall clock, are omitted; no claim mentions them). -/
structure Trade where
  buyOrderId : String
  sellOrderId : String
  price : ℤ
  quantity : ℤ
deriving DecidableEq, Repr

/-- Go `PriceLevel`; `orders` holds references into the order store,
oldest first, mirroring the `[]*Order` slice. -/
structure Level where
  price : ℤ
  orders : List Nat
  quantity : ℤ
deriving DecidableEq, Repr

/-- Go `(*PriceLevel).isEmpty`: no orders or non-positive cached quantity. -/
def Level.isEmpty (l : Level) : Bool := l.orders.isEmpty || decide (l.quantity ≤ 0)

/-- Go `(*PriceLevel).AddOrder`: append the order and add its remaining
quantity to the cached total (the caller passes `order.Remaining()`). -/
def Level.addOrder (l : Level) (oRef : Nat) (rem : ℤ) : Level :=
  { l with orders := l.orders ++ [oRef], quantity := l.quantity + rem }

/-! ### Association lists: the Go `map` types -/

/-- Lookup in an association list (Go map read; keys are unique). -/
def alLookup {α β : Type} [DecidableEq α] : List (α × β) → α → Option β
  | [], _ => none
  | (k, v) :: t, a => if k = a then some v else alLookup t a

/-- Go `delete(m, a)`. -/
def alErase {α β : Type} [DecidableEq α] (m : List (α × β)) (a : α) : List (α × β) :=
  m.filter (fun kv => decide (kv.1 ≠ a))

/-- Go `m[a] = b` (insert or overwrite). -/
def alInsert {α β : Type} [DecidableEq α] (m : List (α × β)) (a : α) (b : β) : List (α × β) :=
  (a, b) :: alErase m a

theorem alLookup_alErase_self {α β : Type} [DecidableEq α] (m : List (α × β)) (a : α) :
    alLookup (alErase m a) a = none := by
  induction m with
  | nil => rfl
  | cons kv t ih =>
    by_cases h : kv.1 = a
    · simpa [alErase, h] using ih
    · simpa [alErase, alLookup, h] using ih

theorem alLookup_alErase_ne {α β : Type} [DecidableEq α] (m : List (α × β)) (a a' : α)
    (h : a ≠ a') : alLookup (alErase m a) a' = alLookup m a' := by
  induction m with
  | nil => rfl
  | cons kv t ih =>
    by_cases hk : kv.1 = a
    · simpa [alErase, alLookup, List.filter_cons, hk, h] using ih
    · by_cases hk' : kv.1 = a'
      · simp [alErase, alLookup, List.filter_cons, hk, hk', Ne.symm h]
      · simpa [alErase, alLookup, List.filter_cons, hk, hk'] using ih

@[simp] theorem alLookup_alInsert_self {α β : Type} [DecidableEq α]
    (m : List (α × β)) (a : α) (b : β) : alLookup (alInsert m a b) a = some b := by
  simp [alInsert, alLookup]

theorem alLookup_alInsert_ne {α β : Type} [DecidableEq α]
    (m : List (α × β)) (a a' : α) (b : β) (h : a ≠ a') :
    alLookup (alInsert m a b) a' = alLookup m a' := by
  simp only [alInsert, alLookup, if_neg h]
  exact alLookup_alErase_ne m a a' h

/-! ### `container/heap` on a slice of level references -/

/-- Swap two positions of a list (Go `h.Swap`); all reachable calls are in
bounds, out-of-bounds indices leave the list unchanged. -/
def listSwap (a : List Nat) (i j : Nat) : List Nat :=
  if i < a.length ∧ j < a.length then
    (a.set i (a.getD j 0)).set j (a.getD i 0)
  else a

/-- Go `container/heap.up`, with an explicit iteration budget: the index `j`
moves to `(j-1)/2` each step, so `j+1` iterations always suffice and the
budget never runs out in `heapUp`. -/
def heapUpAux (lt : Nat → Nat → Bool) : Nat → List Nat → Nat → List Nat
  | 0, a, _ => a
  | f + 1, a, j =>
    let i := (j - 1) / 2
    if i = j ∨ lt (a.getD j 0) (a.getD i 0) = false then a
    else heapUpAux lt f (listSwap a i j) i

def heapUp (lt : Nat → Nat → Bool) (a : List Nat) (j : Nat) : List Nat :=
  heapUpAux lt (j + 1) a j

/-- Go `container/heap.down` restricted to the first `n` entries, with an
explicit iteration budget: the index `i` moves to a child `≥ 2*i+1` each
step while staying `< n`, so `n` iterations always suffice. -/
def heapDownAux (lt : Nat → Nat → Bool) : Nat → List Nat → Nat → Nat → List Nat
  | 0, a, _, _ => a
  | f + 1, a, i, n =>
    if 2 * i + 1 < n then
      let j :=
        if 2 * i + 2 < n ∧ lt (a.getD (2 * i + 2) 0) (a.getD (2 * i + 1) 0) = true
        then 2 * i + 2 else 2 * i + 1
      if lt (a.getD j 0) (a.getD i 0) then heapDownAux lt f (listSwap a i j) j n else a
    else a

def heapDown (lt : Nat → Nat → Bool) (a : List Nat) (i n : Nat) : List Nat :=
  heapDownAux lt n a i n

/-- Go `heap.Push`: append then sift up from the last index. -/
def heapPush (lt : Nat → Nat → Bool) (a : List Nat) (x : Nat) : List Nat :=
  heapUp lt (a ++ [x]) a.length

/-- Go `heap.Pop`: swap the root with the last entry, sift the new root down
over the first `n` entries, then remove and return the last entry.  On an
empty heap Go indexes at `-1` and panics, modelled by `none`. -/
def heapPop (lt : Nat → Nat → Bool) (a : List Nat) : Option (Nat × List Nat) :=
  match a with
  | [] => none
  | _ :: _ =>
    let n := a.length - 1
    let a2 := heapDown lt (listSwap a 0 n) 0 n
    some (a2.getD n 0, a2.take n)

/-! ### The order book -/

/-- Go `OrderBook`.  `orders` and `levels` are the pointer stores (append-only:
Go objects stay alive while referenced); `bids`/`asks` are the heap slices of
level references; `bidLevels`/`askLevels` are the `map[float64]*PriceLevel`
lookup tables; `unfilled` is `UnFilledOrders  map[string]*Order`; `trades` is
the trade log.  `nextRef` allocates fresh references. -/
structure Book where
  orders : List (Nat × Order)
  levels : List (Nat × Level)
  bids : List Nat
  asks : List Nat
  bidLevels : List (ℤ × Nat)
  askLevels : List (ℤ × Nat)
  unfilled : List (String × Nat)
  trades : List Trade
  nextRef : Nat
deriving DecidableEq, Repr

/-- Go `NewOrderBook` (symbol omitted). -/
def emptyBook : Book := ⟨[], [], [], [], [], [], [], [], 0⟩

def defaultOrder : Order := ⟨"", .Bid, .Limit, .Pending, 0, 0, 0⟩

def defaultLevel : Level := ⟨0, [], 0⟩

/-- Dereference an order pointer. -/
def Book.getOrder (b : Book) (r : Nat) : Order := (alLookup b.orders r).getD defaultOrder

/-- Write through an order pointer. -/
def Book.setOrder (b : Book) (r : Nat) (o : Order) : Book :=
  { b with orders := alInsert b.orders r o }

/-- Dereference a level pointer. -/
def Book.getLevel (b : Book) (r : Nat) : Level := (alLookup b.levels r).getD defaultLevel

/-- Write through a level pointer. -/
def Book.setLevel (b : Book) (r : Nat) (l : Level) : Book :=
  { b with levels := alInsert b.levels r l }

/-- `BidHeap.Less`: max-heap, higher price first. -/
def Book.bidLt (b : Book) (r s : Nat) : Bool := decide ((b.getLevel r).price > (b.getLevel s).price)

/-- `AskHeap.Less`: min-heap, lower price first. -/
def Book.askLt (b : Book) (r s : Nat) : Bool := decide ((b.getLevel r).price < (b.getLevel s).price)

/-- The status-update block that `matchOrders` runs once for the buy order
and once for the sell order: if the order at `r` is now filled, set status
`Filled` and delete it from `UnFilledOrders`, else set status `Partial`. -/
def Book.settleStatus (b : Book) (r : Nat) : Book :=
  if (b.getOrder r).isFilled then
    { b.setOrder r { b.getOrder r with status := OrderStatus.Filled } with
      unfilled := alErase b.unfilled (b.getOrder r).id }
  else b.setOrder r { b.getOrder r with status := OrderStatus.Partial }

/-- Go `(*OrderBook).matchOrders`: trade quantity is the minimum of the two
remainings; both filled quantities are incremented; each order that is now
filled gets status `Filled` and is deleted from `UnFilledOrders`, otherwise
status `Partial`; one `Trade` at the given price is returned (the caller
appends it to the log). -/
def Book.matchOrders (b : Book) (buyRef sellRef : Nat) (price : ℤ) : Book × Trade :=
  let quantity := min (b.getOrder buyRef).remaining (b.getOrder sellRef).remaining
  let b1 := b.setOrder buyRef
    { b.getOrder buyRef with
      filledQuantity := (b.getOrder buyRef).filledQuantity + quantity }
  let b2 := b1.setOrder sellRef
    { b1.getOrder sellRef with
      filledQuantity := (b1.getOrder sellRef).filledQuantity + quantity }
  let b3 := b2.settleStatus buyRef
  let b4 := b3.settleStatus sellRef
  (b4, { buyOrderId := (b4.getOrder buyRef).id, sellOrderId := (b4.getOrder sellRef).id,
         price := price, quantity := quantity })

/-- Go `(*OrderBook).cleanupPriceLevel`: rebuild the level keeping only
non-filled orders (`RemoveFilledOrders`) and recompute the cached quantity;
if the level is then empty, pop the side chosen by `isBid` and delete the
level's price from that side's lookup table. -/
def Book.cleanupPriceLevel (b : Book) (lref : Nat) (isBid : Bool) : Except String Book :=
  let lvl := b.getLevel lref
  let newOrders := lvl.orders.filter (fun r => !(b.getOrder r).isFilled)
  let newQuantity := (newOrders.map (fun r => (b.getOrder r).remaining)).sum
  let b1 := b.setLevel lref { lvl with orders := newOrders, quantity := newQuantity }
  if (b1.getLevel lref).isEmpty then
    if isBid then
      match heapPop b1.bidLt b1.bids with
      | none => .error "panic"
      | some (_, bids1) =>
        .ok { b1 with bids := bids1, bidLevels := alErase b1.bidLevels lvl.price }
    else
      match heapPop b1.askLt b1.asks with
      | none => .error "panic"
      | some (_, asks1) =>
        .ok { b1 with asks := asks1, askLevels := alErase b1.askLevels lvl.price }
  else .ok b1

/-- Go `(*OrderBook).AddBidToOrderBook`: record the order in the index and
append it to the level at its price, creating (and heap-pushing) the level
if absent. -/
def Book.addBidToOrderBook (b : Book) (oRef : Nat) : Book :=
  let o := b.getOrder oRef
  let b1 := { b with unfilled := alInsert b.unfilled o.id oRef }
  match alLookup b1.bidLevels o.price with
  | some lref => b1.setLevel lref ((b1.getLevel lref).addOrder oRef o.remaining)
  | none =>
    let lref := b1.nextRef
    let b2 := { b1 with
      nextRef := b1.nextRef + 1,
      levels := alInsert b1.levels lref ⟨o.price, [oRef], o.remaining⟩,
      bidLevels := alInsert b1.bidLevels o.price lref }
    { b2 with bids := heapPush b2.bidLt b2.bids lref }

/-- Go `(*OrderBook).AddAskToOrderBook`. -/
def Book.addAskToOrderBook (b : Book) (oRef : Nat) : Book :=
  let o := b.getOrder oRef
  let b1 := { b with unfilled := alInsert b.unfilled o.id oRef }
  match alLookup b1.askLevels o.price with
  | some lref => b1.setLevel lref ((b1.getLevel lref).addOrder oRef o.remaining)
  | none =>
    let lref := b1.nextRef
    let b2 := { b1 with
      nextRef := b1.nextRef + 1,
      levels := alInsert b1.levels lref ⟨o.price, [oRef], o.remaining⟩,
      askLevels := alInsert b1.askLevels o.price lref }
    { b2 with asks := heapPush b2.askLt b2.asks lref }

/-- The matching loop of `processLimitOrder` for an incoming Bid: while the
order has remaining quantity and the ask heap is non-empty, peek the best
ask level; discard it lazily if stale-empty; match while `o.Price >=
bestAsk.Price` against the level's first order at the level's price,
appending the trade to the result and the book log and cleaning up the
level; otherwise stop. -/
def limitBidLoop : Nat → Book → Nat → List Trade → Except String (Book × List Trade)
  | 0, _, _, _ => .error "fuel"
  | fuel + 1, b, oRef, acc =>
    if (b.getOrder oRef).remaining > 0 ∧ 0 < b.asks.length then
      let lref := b.asks.getD 0 0
      let lvl := b.getLevel lref
      if lvl.isEmpty then
        match heapPop b.askLt b.asks with
        | none => .error "panic"
        | some (_, asks1) =>
          limitBidLoop fuel
            { b with asks := asks1, askLevels := alErase b.askLevels lvl.price } oRef acc
      else if (b.getOrder oRef).price ≥ lvl.price then
        let res := b.matchOrders oRef (lvl.orders.getD 0 0) lvl.price
        let b2 := { res.1 with trades := res.1.trades ++ [res.2] }
        match b2.cleanupPriceLevel lref false with
        | .error e => .error e
        | .ok b3 => limitBidLoop fuel b3 oRef (acc ++ [res.2])
      else .ok (b, acc)
    else .ok (b, acc)

/-- The matching loop of `processLimitOrder` for an incoming Ask (the maker
bid is passed as the buy side of `matchOrders`). -/
def limitAskLoop : Nat → Book → Nat → List Trade → Except String (Book × List Trade)
  | 0, _, _, _ => .error "fuel"
  | fuel + 1, b, oRef, acc =>
    if (b.getOrder oRef).remaining > 0 ∧ 0 < b.bids.length then
      let lref := b.bids.getD 0 0
      let lvl := b.getLevel lref
      if lvl.isEmpty then
        match heapPop b.bidLt b.bids with
        | none => .error "panic"
        | some (_, bids1) =>
          limitAskLoop fuel
            { b with bids := bids1, bidLevels := alErase b.bidLevels lvl.price } oRef acc
      else if (b.getOrder oRef).price ≤ lvl.price then
        let res := b.matchOrders (lvl.orders.getD 0 0) oRef lvl.price
        let b2 := { res.1 with trades := res.1.trades ++ [res.2] }
        match b2.cleanupPriceLevel lref true with
        | .error e => .error e
        | .ok b3 => limitAskLoop fuel b3 oRef (acc ++ [res.2])
      else .ok (b, acc)
    else .ok (b, acc)

/-- Go `(*OrderBook).processLimitOrder`: run the side's matching loop, then
rest any remainder on the order's own side. -/
def processLimitOrder (fuel : Nat) (b : Book) (oRef : Nat) : Except String (Book × List Trade) :=
  if (b.getOrder oRef).side = OrderSide.Bid then
    match limitBidLoop fuel b oRef [] with
    | .error e => .error e
    | .ok (b1, trades) =>
      if (b1.getOrder oRef).remaining > 0 then .ok (b1.addBidToOrderBook oRef, trades)
      else .ok (b1, trades)
  else
    match limitAskLoop fuel b oRef [] with
    | .error e => .error e
    | .ok (b1, trades) =>
      if (b1.getOrder oRef).remaining > 0 then .ok (b1.addAskToOrderBook oRef, trades)
      else .ok (b1, trades)

/-- The matching loop of `processMarketOrder` for an incoming (market) Bid:
as the limit loop but with no price-crossing check. -/
def marketBidLoop : Nat → Book → Nat → List Trade → Except String (Book × List Trade)
  | 0, _, _, _ => .error "fuel"
  | fuel + 1, b, oRef, acc =>
    if (b.getOrder oRef).remaining > 0 ∧ 0 < b.asks.length then
      let lref := b.asks.getD 0 0
      let lvl := b.getLevel lref
      if lvl.isEmpty then
        match heapPop b.askLt b.asks with
        | none => .error "panic"
        | some (_, asks1) =>
          marketBidLoop fuel
            { b with asks := asks1, askLevels := alErase b.askLevels lvl.price } oRef acc
      else
        let res := b.matchOrders oRef (lvl.orders.getD 0 0) lvl.price
        let b2 := { res.1 with trades := res.1.trades ++ [res.2] }
        match b2.cleanupPriceLevel lref false with
        | .error e => .error e
        | .ok b3 => marketBidLoop fuel b3 oRef (acc ++ [res.2])
    else .ok (b, acc)

/-- The matching loop of `processMarketOrder` for an incoming (market) Ask.
The Go source passes the incoming ask as the *buy* argument of
`matchOrders` and calls `cleanupPriceLevel(bestBid, false)` — i.e. with
`isBid = false` although the consumed level is a bid level; both are
reproduced faithfully here. -/
def marketAskLoop : Nat → Book → Nat → List Trade → Except String (Book × List Trade)
  | 0, _, _, _ => .error "fuel"
  | fuel + 1, b, oRef, acc =>
    if (b.getOrder oRef).remaining > 0 ∧ 0 < b.bids.length then
      let lref := b.bids.getD 0 0
      let lvl := b.getLevel lref
      if lvl.isEmpty then
        match heapPop b.bidLt b.bids with
        | none => .error "panic"
        | some (_, bids1) =>
          marketAskLoop fuel
            { b with bids := bids1, bidLevels := alErase b.bidLevels lvl.price } oRef acc
      else
        let res := b.matchOrders oRef (lvl.orders.getD 0 0) lvl.price
        let b2 := { res.1 with trades := res.1.trades ++ [res.2] }
        match b2.cleanupPriceLevel lref false with
        | .error e => .error e
        | .ok b3 => marketAskLoop fuel b3 oRef (acc ++ [res.2])
    else .ok (b, acc)

/-- Go `(*OrderBook).processMarketOrder`: run the side's loop; a remainder is
never inserted and the order's status is set to `Cancelled`. -/
def processMarketOrder (fuel : Nat) (b : Book) (oRef : Nat) : Except String (Book × List Trade) :=
  let run :=
    if (b.getOrder oRef).side = OrderSide.Bid then marketBidLoop fuel b oRef []
    else marketAskLoop fuel b oRef []
  match run with
  | .error e => .error e
  | .ok (b1, trades) =>
    if (b1.getOrder oRef).remaining > 0 then
      .ok (b1.setOrder oRef { b1.getOrder oRef with status := OrderStatus.Cancelled }, trades)
    else .ok (b1, trades)

/-- Go `(*OrderBook).PlaceOrder`: set status Pending (timestamp omitted),
allocate the order's reference, and dispatch on the order type.  Returns the
final book, the incoming order's reference and the trade list. -/
def placeOrder (fuel : Nat) (b : Book) (o : Order) : Except String (Book × Nat × List Trade) :=
  let oRef := b.nextRef
  let b0 := { b with
    nextRef := b.nextRef + 1,
    orders := alInsert b.orders oRef { o with status := OrderStatus.Pending } }
  if o.otype = OrderType.Limit then
    match processLimitOrder fuel b0 oRef with
    | .error e => .error e
    | .ok (b1, trades) => .ok (b1, oRef, trades)
  else
    match processMarketOrder fuel b0 oRef with
    | .error e => .error e
    | .ok (b1, trades) => .ok (b1, oRef, trades)

/-- Go `(*OrderBook).CancelOrder`: absent from `UnFilledOrders` reports
`false` with the book untouched; otherwise mark Cancelled, drop from the
index, rebuild the order's price level without it and clean the level up. -/
def cancelOrder (b : Book) (orderID : String) : Except String (Book × Bool) :=
  match alLookup b.unfilled orderID with
  | none => .ok (b, false)
  | some oRef =>
    let b1 := b.setOrder oRef { b.getOrder oRef with status := OrderStatus.Cancelled }
    let b2 := { b1 with unfilled := alErase b1.unfilled orderID }
    let o := b2.getOrder oRef
    let lookedUp :=
      if o.side = OrderSide.Bid then (alLookup b2.bidLevels o.price, true)
      else (alLookup b2.askLevels o.price, false)
    match lookedUp with
    | (none, _) => .ok (b2, true)
    | (some lref, isBid) =>
      let lvl := b2.getLevel lref
      let newOrders := lvl.orders.filter (fun r => decide ((b2.getOrder r).id ≠ orderID))
      let newQuantity := (newOrders.map (fun r => (b2.getOrder r).remaining)).sum
      let b3 := b2.setLevel lref { lvl with orders := newOrders, quantity := newQuantity }
      match b3.cleanupPriceLevel lref isBid with
      | .error e => .error e
      | .ok b4 => .ok (b4, true)

/-- Go `(*OrderBook).GetBestBidAsk`: zero-valued results and a single shared
`ok` flag, set when either side is non-empty. -/
def getBestBidAsk (b : Book) : ℤ × ℤ × Bool :=
  let bestBid := if 0 < b.bids.length then (b.getLevel (b.bids.getD 0 0)).price else 0
  let bestAsk := if 0 < b.asks.length then (b.getLevel (b.asks.getD 0 0)).price else 0
  let ok := decide (0 < b.bids.length) || decide (0 < b.asks.length)
  (bestBid, bestAsk, ok)

/-- The depth walk of Go `(*OrderBook).GetDepth` over one side's heap slice:
scan the slice in index order while the budget lasts, copying non-empty
levels and skipping empty ones without spending budget. -/
def depthWalk (b : Book) : List Nat → Nat → List Level
  | [], _ => []
  | r :: rest, n =>
    if n = 0 then []
    else
      let lvl := b.getLevel r
      if lvl.isEmpty then depthWalk b rest n
      else lvl :: depthWalk b rest (n - 1)

/-- Go `(*OrderBook).GetDepth`. -/
def getDepth (b : Book) (levels : Nat) : List Level × List Level :=
  (depthWalk b b.bids levels, depthWalk b b.asks levels)

/-! ### Helper constructions used by concrete scenarios -/

/-- A freshly submitted order (zero filled, Pending). -/
def mkOrder (id : String) (side : OrderSide) (ty : OrderType) (price qty : ℤ) : Order :=
  ⟨id, side, ty, .Pending, price, qty, 0⟩

/-- Extract the book from a `placeOrder` result (scenario plumbing). -/
def exBook (e : Except String (Book × Nat × List Trade)) : Book :=
  match e with | .ok (b, _, _) => b | .error _ => emptyBook

/-- Extract the trade list from a `placeOrder` result. -/
def exTrades (e : Except String (Book × Nat × List Trade)) : List Trade :=
  match e with | .ok (_, _, ts) => ts | .error _ => []

/-- Extract the book from a `cancelOrder` result. -/
def exCancelBook (e : Except String (Book × Bool)) : Book :=
  match e with | .ok (b, _) => b | .error _ => emptyBook

/-- Extract the book from a `cleanupPriceLevel` result. -/
def exClean (e : Except String Book) : Book :=
  match e with | .ok b => b | .error _ => emptyBook

/-! ### Basic lemmas about the stores and accessors -/

@[simp] theorem getOrder_setOrder_self (b : Book) (r : Nat) (o : Order) :
    (b.setOrder r o).getOrder r = o := by
  simp [Book.getOrder, Book.setOrder, alLookup_alInsert_self]

theorem getOrder_setOrder_ne (b : Book) (r s : Nat) (o : Order) (h : r ≠ s) :
    (b.setOrder r o).getOrder s = b.getOrder s := by
  simp [Book.getOrder, Book.setOrder, alLookup_alInsert_ne _ _ _ _ h]

@[simp] theorem getOrder_setLevel (b : Book) (r s : Nat) (l : Level) :
    (b.setLevel r l).getOrder s = b.getOrder s := rfl

@[simp] theorem getLevel_setOrder (b : Book) (r s : Nat) (o : Order) :
    (b.setOrder r o).getLevel s = b.getLevel s := rfl

@[simp] theorem getLevel_setLevel_self (b : Book) (r : Nat) (l : Level) :
    (b.setLevel r l).getLevel r = l := by
  simp [Book.getLevel, Book.setLevel, alLookup_alInsert_self]

theorem getLevel_setLevel_ne (b : Book) (r s : Nat) (l : Level) (h : r ≠ s) :
    (b.setLevel r l).getLevel s = b.getLevel s := by
  simp [Book.getLevel, Book.setLevel, alLookup_alInsert_ne _ _ _ _ h]

@[simp] theorem setOrder_asks (b : Book) (r : Nat) (o : Order) :
    (b.setOrder r o).asks = b.asks := rfl

@[simp] theorem setOrder_bids (b : Book) (r : Nat) (o : Order) :
    (b.setOrder r o).bids = b.bids := rfl

@[simp] theorem setOrder_trades (b : Book) (r : Nat) (o : Order) :
    (b.setOrder r o).trades = b.trades := rfl

@[simp] theorem setOrder_unfilled (b : Book) (r : Nat) (o : Order) :
    (b.setOrder r o).unfilled = b.unfilled := rfl

@[simp] theorem setLevel_orders (b : Book) (r : Nat) (l : Level) :
    (b.setLevel r l).orders = b.orders := rfl

@[simp] theorem setLevel_trades (b : Book) (r : Nat) (l : Level) :
    (b.setLevel r l).trades = b.trades := rfl

@[simp] theorem setLevel_unfilled (b : Book) (r : Nat) (l : Level) :
    (b.setLevel r l).unfilled = b.unfilled := rfl

/-! ### Lemmas about `matchOrders` -/

theorem matchOrders_trade_price (b : Book) (x y : Nat) (p : ℤ) :
    (b.matchOrders x y p).2.price = p := rfl

theorem matchOrders_trade_quantity (b : Book) (x y : Nat) (p : ℤ) :
    (b.matchOrders x y p).2.quantity
      = min (b.getOrder x).remaining (b.getOrder y).remaining := rfl

@[simp] theorem getOrder_update_unfilled (b : Book) (u : List (String × Nat)) (r : Nat) :
    Book.getOrder { b with unfilled := u } r = b.getOrder r := rfl

@[simp] theorem isFilled_set_status (o : Order) (s : OrderStatus) :
    Order.isFilled { o with status := s } = o.isFilled := rfl

@[simp] theorem isFilled_mk (i : String) (sd : OrderSide) (ot : OrderType) (st : OrderStatus)
    (pr qt fq : ℤ) :
    Order.isFilled ⟨i, sd, ot, st, pr, qt, fq⟩ = decide (fq ≥ qt) := rfl

@[simp] theorem getOrder_mk (os : List (Nat × Order)) (ls : List (Nat × Level))
    (bs as : List Nat) (bl al : List (ℤ × Nat)) (uf : List (String × Nat))
    (ts : List Trade) (nr : Nat) (r : Nat) :
    Book.getOrder ⟨os, ls, bs, as, bl, al, uf, ts, nr⟩ r = (alLookup os r).getD defaultOrder := rfl

@[simp] theorem getLevel_mk (os : List (Nat × Order)) (ls : List (Nat × Level))
    (bs as : List Nat) (bl al : List (ℤ × Nat)) (uf : List (String × Nat))
    (ts : List Trade) (nr : Nat) (r : Nat) :
    Book.getLevel ⟨os, ls, bs, as, bl, al, uf, ts, nr⟩ r = (alLookup ls r).getD defaultLevel := rfl

@[simp] theorem setOrder_orders (b : Book) (r : Nat) (o : Order) :
    (b.setOrder r o).orders = alInsert b.orders r o := rfl

@[simp] theorem setLevel_levels (b : Book) (r : Nat) (l : Level) :
    (b.setLevel r l).levels = alInsert b.levels r l := rfl

@[simp] theorem setOrder_levels (b : Book) (r : Nat) (o : Order) :
    (b.setOrder r o).levels = b.levels := rfl

@[simp] theorem setOrder_bidLevels (b : Book) (r : Nat) (o : Order) :
    (b.setOrder r o).bidLevels = b.bidLevels := rfl

@[simp] theorem setOrder_askLevels (b : Book) (r : Nat) (o : Order) :
    (b.setOrder r o).askLevels = b.askLevels := rfl

@[simp] theorem setOrder_nextRef (b : Book) (r : Nat) (o : Order) :
    (b.setOrder r o).nextRef = b.nextRef := rfl

@[simp] theorem setLevel_asks (b : Book) (r : Nat) (l : Level) :
    (b.setLevel r l).asks = b.asks := rfl

@[simp] theorem setLevel_bids (b : Book) (r : Nat) (l : Level) :
    (b.setLevel r l).bids = b.bids := rfl

@[simp] theorem setLevel_bidLevels (b : Book) (r : Nat) (l : Level) :
    (b.setLevel r l).bidLevels = b.bidLevels := rfl

@[simp] theorem setLevel_askLevels (b : Book) (r : Nat) (l : Level) :
    (b.setLevel r l).askLevels = b.askLevels := rfl

@[simp] theorem setLevel_nextRef (b : Book) (r : Nat) (l : Level) :
    (b.setLevel r l).nextRef = b.nextRef := rfl

theorem alLookup_alErase_of_none {β : Type} (m : List (String × β)) (k a : String)
    (h : alLookup m a = none) : alLookup (alErase m k) a = none := by
  by_cases hk : k = a
  · subst hk; exact alLookup_alErase_self _ _
  · rw [alLookup_alErase_ne _ _ _ hk]; exact h

/-! ### Lemmas about `settleStatus` -/

@[simp] theorem settleStatus_asks (b : Book) (r : Nat) :
    (b.settleStatus r).asks = b.asks := by
  unfold Book.settleStatus; split <;> rfl

@[simp] theorem settleStatus_bids (b : Book) (r : Nat) :
    (b.settleStatus r).bids = b.bids := by
  unfold Book.settleStatus; split <;> rfl

@[simp] theorem settleStatus_trades (b : Book) (r : Nat) :
    (b.settleStatus r).trades = b.trades := by
  unfold Book.settleStatus; split <;> rfl

@[simp] theorem settleStatus_levels (b : Book) (r : Nat) :
    (b.settleStatus r).levels = b.levels := by
  unfold Book.settleStatus; split <;> rfl

theorem getOrder_settleStatus_ne (b : Book) (r s : Nat) (h : r ≠ s) :
    (b.settleStatus r).getOrder s = b.getOrder s := by
  unfold Book.settleStatus; split
  · rw [getOrder_update_unfilled, getOrder_setOrder_ne _ _ _ _ h]
  · exact getOrder_setOrder_ne _ _ _ _ h

theorem getOrder_settleStatus_self (b : Book) (r : Nat) :
    (b.settleStatus r).getOrder r
      = { b.getOrder r with
          status := if (b.getOrder r).isFilled then OrderStatus.Filled
                    else OrderStatus.Partial } := by
  unfold Book.settleStatus
  by_cases h : (b.getOrder r).isFilled = true
  · simp [h]
  · simp [h]

theorem settleStatus_unfilled_self (b : Book) (r : Nat)
    (h : (b.getOrder r).isFilled = true) :
    alLookup (b.settleStatus r).unfilled (b.getOrder r).id = none := by
  unfold Book.settleStatus
  rw [if_pos h]
  exact alLookup_alErase_self _ _

theorem settleStatus_unfilled_none (b : Book) (r : Nat) (a : String)
    (h : alLookup b.unfilled a = none) :
    alLookup (b.settleStatus r).unfilled a = none := by
  unfold Book.settleStatus; split
  · exact alLookup_alErase_of_none _ _ _ h
  · exact h

theorem settleStatus_unfilled_eq (b : Book) (r : Nat) (a : String)
    (h : (b.getOrder r).isFilled = true) (ha : a = (b.getOrder r).id) :
    alLookup (b.settleStatus r).unfilled a = none := by
  rw [ha]
  exact settleStatus_unfilled_self b r h

theorem two_settle_getOrder_fst (B : Book) (x y : Nat) (hyx : y ≠ x) :
    ((B.settleStatus x).settleStatus y).getOrder x
      = { B.getOrder x with
          status := if (B.getOrder x).isFilled then OrderStatus.Filled
                    else OrderStatus.Partial } := by
  rw [getOrder_settleStatus_ne _ _ _ hyx, getOrder_settleStatus_self]

theorem two_settle_getOrder_snd (B : Book) (x y : Nat) :
    ((B.settleStatus x).settleStatus y).getOrder y
      = { (B.settleStatus x).getOrder y with
          status := if ((B.settleStatus x).getOrder y).isFilled then OrderStatus.Filled
                    else OrderStatus.Partial } := by
  rw [getOrder_settleStatus_self]

/-! ### Lemmas about `matchOrders` -/

theorem matchOrders_fst_asks (b : Book) (x y : Nat) (p : ℤ) :
    (b.matchOrders x y p).1.asks = b.asks := by
  unfold Book.matchOrders
  simp

theorem matchOrders_fst_bids (b : Book) (x y : Nat) (p : ℤ) :
    (b.matchOrders x y p).1.bids = b.bids := by
  unfold Book.matchOrders
  simp

theorem matchOrders_fst_trades (b : Book) (x y : Nat) (p : ℤ) :
    (b.matchOrders x y p).1.trades = b.trades := by
  unfold Book.matchOrders
  simp

theorem matchOrders_fst_levels (b : Book) (x y : Nat) (p : ℤ) :
    (b.matchOrders x y p).1.levels = b.levels := by
  unfold Book.matchOrders
  simp

theorem matchOrders_getOrder_buy (b : Book) (x y : Nat) (p : ℤ) (hxy : x ≠ y) :
    (b.matchOrders x y p).1.getOrder x
      = { b.getOrder x with
          filledQuantity := (b.getOrder x).filledQuantity
            + min (b.getOrder x).remaining (b.getOrder y).remaining,
          status :=
            if decide ((b.getOrder x).filledQuantity
                + min (b.getOrder x).remaining (b.getOrder y).remaining
                ≥ (b.getOrder x).quantity) = true
            then OrderStatus.Filled else OrderStatus.Partial } := by
  have hyx : y ≠ x := Ne.symm hxy
  unfold Book.matchOrders
  dsimp only
  rw [two_settle_getOrder_fst _ _ _ hyx, getOrder_setOrder_ne _ _ _ _ hyx,
    getOrder_setOrder_self]
  simp

theorem matchOrders_getOrder_sell (b : Book) (x y : Nat) (p : ℤ) (hxy : x ≠ y) :
    (b.matchOrders x y p).1.getOrder y
      = { b.getOrder y with
          filledQuantity := (b.getOrder y).filledQuantity
            + min (b.getOrder x).remaining (b.getOrder y).remaining,
          status :=
            if decide ((b.getOrder y).filledQuantity
                + min (b.getOrder x).remaining (b.getOrder y).remaining
                ≥ (b.getOrder y).quantity) = true
            then OrderStatus.Filled else OrderStatus.Partial } := by
  unfold Book.matchOrders
  dsimp only
  rw [two_settle_getOrder_snd, getOrder_settleStatus_ne _ _ _ hxy,
    getOrder_setOrder_self, getOrder_setOrder_ne _ _ _ _ hxy]
  simp

theorem matchOrders_unfilled_buy (b : Book) (x y : Nat) (p : ℤ) (hxy : x ≠ y)
    (h : ((b.matchOrders x y p).1.getOrder x).isFilled = true) :
    alLookup (b.matchOrders x y p).1.unfilled (b.getOrder x).id = none := by
  have hyx : y ≠ x := Ne.symm hxy
  rw [matchOrders_getOrder_buy _ _ _ _ hxy] at h
  simp only [isFilled_mk] at h
  unfold Book.matchOrders
  dsimp only
  apply settleStatus_unfilled_none
  refine settleStatus_unfilled_eq _ _ _ ?_ ?_
  · rw [getOrder_setOrder_ne _ _ _ _ hyx, getOrder_setOrder_self]
    simpa using h
  · rw [getOrder_setOrder_ne _ _ _ _ hyx, getOrder_setOrder_self]

theorem matchOrders_unfilled_sell (b : Book) (x y : Nat) (p : ℤ) (hxy : x ≠ y)
    (h : ((b.matchOrders x y p).1.getOrder y).isFilled = true) :
    alLookup (b.matchOrders x y p).1.unfilled (b.getOrder y).id = none := by
  rw [matchOrders_getOrder_sell _ _ _ _ hxy] at h
  simp only [isFilled_mk] at h
  unfold Book.matchOrders
  dsimp only
  refine settleStatus_unfilled_eq _ _ _ ?_ ?_
  · rw [getOrder_settleStatus_ne _ _ _ hxy, getOrder_setOrder_self,
      getOrder_setOrder_ne _ _ _ _ hxy]
    simpa using h
  · rw [getOrder_settleStatus_ne _ _ _ hxy, getOrder_setOrder_self,
      getOrder_setOrder_ne _ _ _ _ hxy]

/-- The shared matching primitive, Go `matchOrders`: trade quantity is the
minimum of the two remaining quantities at match time, both filled
quantities grow by exactly it, a now-filled order gets status `Filled` and
leaves `UnFilledOrders`, a partly unfilled one gets status `Partial`. -/
theorem matchOrders_contract (b : Book) (x y : Nat) (p : ℤ) (hxy : x ≠ y) :
    (b.matchOrders x y p).2.quantity
        = min (b.getOrder x).remaining (b.getOrder y).remaining
    ∧ ((b.matchOrders x y p).1.getOrder x).filledQuantity
        = (b.getOrder x).filledQuantity + (b.matchOrders x y p).2.quantity
    ∧ ((b.matchOrders x y p).1.getOrder y).filledQuantity
        = (b.getOrder y).filledQuantity + (b.matchOrders x y p).2.quantity
    ∧ (((b.matchOrders x y p).1.getOrder x).isFilled = true →
        ((b.matchOrders x y p).1.getOrder x).status = OrderStatus.Filled
        ∧ alLookup (b.matchOrders x y p).1.unfilled (b.getOrder x).id = none)
    ∧ (((b.matchOrders x y p).1.getOrder x).isFilled = false →
        ((b.matchOrders x y p).1.getOrder x).status = OrderStatus.Partial)
    ∧ (((b.matchOrders x y p).1.getOrder y).isFilled = true →
        ((b.matchOrders x y p).1.getOrder y).status = OrderStatus.Filled
        ∧ alLookup (b.matchOrders x y p).1.unfilled (b.getOrder y).id = none)
    ∧ (((b.matchOrders x y p).1.getOrder y).isFilled = false →
        ((b.matchOrders x y p).1.getOrder y).status = OrderStatus.Partial) := by
  refine ⟨rfl, ?_, ?_, ?_, ?_, ?_, ?_⟩
  · rw [matchOrders_getOrder_buy _ _ _ _ hxy]
    simp [matchOrders_trade_quantity]
  · rw [matchOrders_getOrder_sell _ _ _ _ hxy]
    simp [matchOrders_trade_quantity]
  · intro h
    refine ⟨?_, matchOrders_unfilled_buy _ _ _ _ hxy h⟩
    rw [matchOrders_getOrder_buy _ _ _ _ hxy] at h ⊢
    simp only [isFilled_mk] at h
    simp [h]
  · intro h
    rw [matchOrders_getOrder_buy _ _ _ _ hxy] at h ⊢
    simp only [isFilled_mk] at h
    simp [h]
  · intro h
    refine ⟨?_, matchOrders_unfilled_sell _ _ _ _ hxy h⟩
    rw [matchOrders_getOrder_sell _ _ _ _ hxy] at h ⊢
    simp only [isFilled_mk] at h
    simp [h]
  · intro h
    rw [matchOrders_getOrder_sell _ _ _ _ hxy] at h ⊢
    simp only [isFilled_mk] at h
    simp [h]

theorem getOrder_congr (b b' : Book) (h : b'.orders = b.orders) (r : Nat) :
    b'.getOrder r = b.getOrder r := by
  unfold Book.getOrder; rw [h]

theorem matchOrders_trade_buyId (b : Book) (x y : Nat) (p : ℤ) (hxy : x ≠ y) :
    (b.matchOrders x y p).2.buyOrderId = (b.getOrder x).id := by
  show ((b.matchOrders x y p).1.getOrder x).id = _
  rw [matchOrders_getOrder_buy _ _ _ _ hxy]

theorem matchOrders_trade_sellId (b : Book) (x y : Nat) (p : ℤ) (hxy : x ≠ y) :
    (b.matchOrders x y p).2.sellOrderId = (b.getOrder y).id := by
  show ((b.matchOrders x y p).1.getOrder y).id = _
  rw [matchOrders_getOrder_sell _ _ _ _ hxy]

/-- When `cleanupPriceLevel` cleans a level on the ask side and the ask heap
is non-empty, it succeeds and leaves the order store, the order index and
the trade log untouched. -/
theorem cleanupPriceLevel_ok_ask (b : Book) (lref : Nat) (h : b.asks ≠ []) :
    ∃ b', b.cleanupPriceLevel lref false = .ok b'
      ∧ b'.orders = b.orders ∧ b'.unfilled = b.unfilled ∧ b'.trades = b.trades := by
  unfold Book.cleanupPriceLevel
  dsimp only
  split
  · rcases hasks : b.asks with _ | ⟨hd, tl⟩
    · exact absurd hasks h
    · rw [show (Book.setLevel b lref _).asks = b.asks from rfl, hasks]
      simp only [heapPop]
      exact ⟨_, rfl, by simp, by simp, by simp⟩
  · exact ⟨_, rfl, by simp, by simp, by simp⟩

/-- Bid-side analogue of `cleanupPriceLevel_ok_ask`. -/
theorem cleanupPriceLevel_ok_bid (b : Book) (lref : Nat) (h : b.bids ≠ []) :
    ∃ b', b.cleanupPriceLevel lref true = .ok b'
      ∧ b'.orders = b.orders ∧ b'.unfilled = b.unfilled ∧ b'.trades = b.trades := by
  unfold Book.cleanupPriceLevel
  dsimp only
  split
  · rcases hbids : b.bids with _ | ⟨hd, tl⟩
    · exact absurd hbids h
    · rw [show (Book.setLevel b lref _).bids = b.bids from rfl, hbids]
      simp only [heapPop]
      exact ⟨_, rfl, by simp, by simp, by simp⟩
  · exact ⟨_, rfl, by simp, by simp, by simp⟩

/-! ### One-iteration unfoldings of the four matching loops -/

/-- The book state built inside a matching loop body right after
`matchOrders` and the append of the new trade to the book's trade log,
before `cleanupPriceLevel`. -/
def afterMatch (b : Book) (buyRef sellRef : Nat) (p : ℤ) : Book :=
  { (b.matchOrders buyRef sellRef p).1 with
    trades := (b.matchOrders buyRef sellRef p).1.trades ++ [(b.matchOrders buyRef sellRef p).2] }


theorem limitBidLoop_step (fuel : Nat) (b : Book) (oRef : Nat) (acc : List Trade)
    (lref : Nat) (rest : List Nat) (hasks : b.asks = lref :: rest)
    (hrem : (b.getOrder oRef).remaining > 0)
    (hemp : (b.getLevel lref).isEmpty = false)
    (hcross : (b.getOrder oRef).price ≥ (b.getLevel lref).price) :
    limitBidLoop (fuel + 1) b oRef acc =
      (match (afterMatch b oRef ((b.getLevel lref).orders.getD 0 0)
                (b.getLevel lref).price).cleanupPriceLevel lref false with
       | .error e => .error e
       | .ok b3 => limitBidLoop fuel b3 oRef
            (acc ++ [(b.matchOrders oRef ((b.getLevel lref).orders.getD 0 0)
                       (b.getLevel lref).price).2])) := by
  have hlen : 0 < b.asks.length := by rw [hasks]; simp
  have hne : ¬ ((b.getLevel lref).isEmpty = true) := by simp [hemp]
  rw [limitBidLoop, if_pos ⟨hrem, hlen⟩]
  dsimp only
  rw [hasks]
  dsimp only [List.getD_cons_zero]
  rw [if_neg hne, if_pos hcross]
  rfl

theorem limitBidLoop_stop (fuel : Nat) (b : Book) (oRef : Nat) (acc : List Trade)
    (lref : Nat) (rest : List Nat) (hasks : b.asks = lref :: rest)
    (hrem : (b.getOrder oRef).remaining > 0)
    (hemp : (b.getLevel lref).isEmpty = false)
    (hnc : ¬ ((b.getOrder oRef).price ≥ (b.getLevel lref).price)) :
    limitBidLoop (fuel + 1) b oRef acc = .ok (b, acc) := by
  have hlen : 0 < b.asks.length := by rw [hasks]; simp
  have hne : ¬ ((b.getLevel lref).isEmpty = true) := by simp [hemp]
  rw [limitBidLoop, if_pos ⟨hrem, hlen⟩]
  dsimp only
  rw [hasks]
  dsimp only [List.getD_cons_zero]
  rw [if_neg hne, if_neg hnc]

theorem limitAskLoop_step (fuel : Nat) (b : Book) (oRef : Nat) (acc : List Trade)
    (lref : Nat) (rest : List Nat) (hbids : b.bids = lref :: rest)
    (hrem : (b.getOrder oRef).remaining > 0)
    (hemp : (b.getLevel lref).isEmpty = false)
    (hcross : (b.getOrder oRef).price ≤ (b.getLevel lref).price) :
    limitAskLoop (fuel + 1) b oRef acc =
      (match (afterMatch b ((b.getLevel lref).orders.getD 0 0) oRef
                (b.getLevel lref).price).cleanupPriceLevel lref true with
       | .error e => .error e
       | .ok b3 => limitAskLoop fuel b3 oRef
            (acc ++ [(b.matchOrders ((b.getLevel lref).orders.getD 0 0) oRef
                       (b.getLevel lref).price).2])) := by
  have hlen : 0 < b.bids.length := by rw [hbids]; simp
  have hne : ¬ ((b.getLevel lref).isEmpty = true) := by simp [hemp]
  rw [limitAskLoop, if_pos ⟨hrem, hlen⟩]
  dsimp only
  rw [hbids]
  dsimp only [List.getD_cons_zero]
  rw [if_neg hne, if_pos hcross]
  rfl

theorem limitAskLoop_stop (fuel : Nat) (b : Book) (oRef : Nat) (acc : List Trade)
    (lref : Nat) (rest : List Nat) (hbids : b.bids = lref :: rest)
    (hrem : (b.getOrder oRef).remaining > 0)
    (hemp : (b.getLevel lref).isEmpty = false)
    (hnc : ¬ ((b.getOrder oRef).price ≤ (b.getLevel lref).price)) :
    limitAskLoop (fuel + 1) b oRef acc = .ok (b, acc) := by
  have hlen : 0 < b.bids.length := by rw [hbids]; simp
  have hne : ¬ ((b.getLevel lref).isEmpty = true) := by simp [hemp]
  rw [limitAskLoop, if_pos ⟨hrem, hlen⟩]
  dsimp only
  rw [hbids]
  dsimp only [List.getD_cons_zero]
  rw [if_neg hne, if_neg hnc]

theorem marketBidLoop_step (fuel : Nat) (b : Book) (oRef : Nat) (acc : List Trade)
    (lref : Nat) (rest : List Nat) (hasks : b.asks = lref :: rest)
    (hrem : (b.getOrder oRef).remaining > 0)
    (hemp : (b.getLevel lref).isEmpty = false) :
    marketBidLoop (fuel + 1) b oRef acc =
      (match (afterMatch b oRef ((b.getLevel lref).orders.getD 0 0)
                (b.getLevel lref).price).cleanupPriceLevel lref false with
       | .error e => .error e
       | .ok b3 => marketBidLoop fuel b3 oRef
            (acc ++ [(b.matchOrders oRef ((b.getLevel lref).orders.getD 0 0)
                       (b.getLevel lref).price).2])) := by
  have hlen : 0 < b.asks.length := by rw [hasks]; simp
  have hne : ¬ ((b.getLevel lref).isEmpty = true) := by simp [hemp]
  rw [marketBidLoop, if_pos ⟨hrem, hlen⟩]
  dsimp only
  rw [hasks]
  dsimp only [List.getD_cons_zero]
  rw [if_neg hne]
  rfl

theorem marketAskLoop_step (fuel : Nat) (b : Book) (oRef : Nat) (acc : List Trade)
    (lref : Nat) (rest : List Nat) (hbids : b.bids = lref :: rest)
    (hrem : (b.getOrder oRef).remaining > 0)
    (hemp : (b.getLevel lref).isEmpty = false) :
    marketAskLoop (fuel + 1) b oRef acc =
      (match (afterMatch b oRef ((b.getLevel lref).orders.getD 0 0)
                (b.getLevel lref).price).cleanupPriceLevel lref false with
       | .error e => .error e
       | .ok b3 => marketAskLoop fuel b3 oRef
            (acc ++ [(b.matchOrders oRef ((b.getLevel lref).orders.getD 0 0)
                       (b.getLevel lref).price).2])) := by
  have hlen : 0 < b.bids.length := by rw [hbids]; simp
  have hne : ¬ ((b.getLevel lref).isEmpty = true) := by simp [hemp]
  rw [marketAskLoop, if_pos ⟨hrem, hlen⟩]
  dsimp only
  rw [hbids]
  dsimp only [List.getD_cons_zero]
  rw [if_neg hne]
  rfl

/-! ### Concrete scenario books -/

/-- The book inside a matching iteration of an incoming limit Bid: one
resting ask order (ref 0, id `"a1"`, price 100, qty 1) on level ref 1, and
the incoming taker (ref 2, id `"t1"`, Bid, price 105, qty 2) already
allocated in the order store. -/
def stepBook : Book :=
  ⟨[(0, ⟨"a1", .Ask, .Limit, .Pending, 100, 1, 0⟩), (2, ⟨"t1", .Bid, .Limit, .Pending, 105, 2, 0⟩)],
   [(1, ⟨100, [0], 1⟩)], [], [1], [], [(100, 1)], [("a1", 0)], [], 3⟩

/-- Mirror image of `stepBook`: one resting bid order and an incoming Ask
taker (ref 2, id `"t2"`, price 95, qty 2). -/
def stepBook2 : Book :=
  ⟨[(0, ⟨"b1", .Bid, .Limit, .Pending, 100, 1, 0⟩), (2, ⟨"t2", .Ask, .Limit, .Pending, 95, 2, 0⟩)],
   [(1, ⟨100, [0], 1⟩)], [1], [], [(100, 1)], [], [("b1", 0)], [], 3⟩

/-- `stepBook` with the incoming Bid priced at 90, below the best ask 100,
so the crossing rule fails. -/
def stepBookLow : Book :=
  ⟨[(0, ⟨"a1", .Ask, .Limit, .Pending, 100, 1, 0⟩), (2, ⟨"t1", .Bid, .Limit, .Pending, 90, 2, 0⟩)],
   [(1, ⟨100, [0], 1⟩)], [], [1], [], [(100, 1)], [("a1", 0)], [], 3⟩

/-- `stepBook2` with the incoming Ask priced at 110, above the best bid 100,
so the crossing rule fails. -/
def stepBook2High : Book :=
  ⟨[(0, ⟨"b1", .Bid, .Limit, .Pending, 100, 1, 0⟩), (2, ⟨"t2", .Ask, .Limit, .Pending, 110, 2, 0⟩)],
   [(1, ⟨100, [0], 1⟩)], [1], [], [(100, 1)], [], [("b1", 0)], [], 3⟩

/-- A book inside a market-Ask iteration: a resting bid level (ref 1) and a
resting ask level (ref 4), plus the incoming market Ask taker (ref 2). -/
def stepBook3 : Book :=
  ⟨[(0, ⟨"b1", .Bid, .Limit, .Pending, 100, 1, 0⟩),
    (2, ⟨"t3", .Ask, .Market, .Pending, 0, 2, 0⟩),
    (3, ⟨"a9", .Ask, .Limit, .Pending, 200, 1, 0⟩)],
   [(1, ⟨100, [0], 1⟩), (4, ⟨200, [3], 1⟩)],
   [1], [4], [(100, 1)], [(200, 4)], [("b1", 0), ("a9", 3)], [], 5⟩

/-- A book holding exactly one resting limit Bid `"b1"` at price 100, qty 1. -/
def oneBidBook : Book := exBook (placeOrder 20 emptyBook (mkOrder "b1" .Bid .Limit 100 1))

/-- Scenario D of the spec: a resting Ask `"a2"` at 100 qty 1, then a limit
Bid `"b1"` at 90 qty 1 is placed. -/
def scenarioD : Except String (Book × Nat × List Trade) :=
  placeOrder 20 (exBook (placeOrder 20 emptyBook (mkOrder "a2" .Ask .Limit 100 1)))
    (mkOrder "b1" .Bid .Limit 90 1)

/-- Resting bids `"b1"` at 100 and `"b2"` at 90, then `"b2"` is cancelled.
Cancelling empties the price-90 level, and `cleanupPriceLevel` pops the
top of the bid heap — which is the price-100 level. -/
def cancelledBook : Book :=
  exCancelBook (cancelOrder
    (exBook (placeOrder 20 oneBidBook (mkOrder "b2" .Bid .Limit 90 1))) "b2")

/-- Three resting limit bids placed at 50, 60, 70 (in that order); the bid
heap array ends up `[70, 50, 60]` by price. -/
def threeBidsBook : Book :=
  exBook (placeOrder 20
    (exBook (placeOrder 20
      (exBook (placeOrder 20 emptyBook (mkOrder "o1" .Bid .Limit 50 1)))
      (mkOrder "o2" .Bid .Limit 60 1)))
    (mkOrder "o3" .Bid .Limit 70 1))

/-! ### Claim theorems -/

/-- C1: for every match performed during `PlaceOrder` between the incoming
taker and the first order of the best resting level (shown for both limit
branches; the match primitive is shared), the executed quantity is
`min(taker.remaining, maker.remaining)` at match time, both orders' filled
quantities increase by exactly that amount, an order that becomes fully
filled gets status `Filled` and is removed from `UnFilledOrders`, an order
left partly unfilled gets status `Partial`, and exactly one `Trade` with
that quantity is appended to the book's trade log for the match event. -/
theorem C1_matching_primitive :
    (∀ (fuel : Nat) (b : Book) (oRef : Nat) (acc : List Trade) (lref : Nat) (rest : List Nat),
      b.asks = lref :: rest →
      (b.getOrder oRef).remaining > 0 →
      (b.getLevel lref).isEmpty = false →
      (b.getOrder oRef).price ≥ (b.getLevel lref).price →
      oRef ≠ (b.getLevel lref).orders.getD 0 0 →
      ∃ b3,
        limitBidLoop (fuel + 1) b oRef acc
          = limitBidLoop fuel b3 oRef
              (acc ++ [(b.matchOrders oRef ((b.getLevel lref).orders.getD 0 0)
                         (b.getLevel lref).price).2])
        ∧ b3.trades = b.trades
            ++ [(b.matchOrders oRef ((b.getLevel lref).orders.getD 0 0)
                  (b.getLevel lref).price).2]
        ∧ (b.matchOrders oRef ((b.getLevel lref).orders.getD 0 0)
            (b.getLevel lref).price).2.quantity
          = min (b.getOrder oRef).remaining
              (b.getOrder ((b.getLevel lref).orders.getD 0 0)).remaining
        ∧ (b3.getOrder oRef).filledQuantity
          = (b.getOrder oRef).filledQuantity
            + (b.matchOrders oRef ((b.getLevel lref).orders.getD 0 0)
                (b.getLevel lref).price).2.quantity
        ∧ (b3.getOrder ((b.getLevel lref).orders.getD 0 0)).filledQuantity
          = (b.getOrder ((b.getLevel lref).orders.getD 0 0)).filledQuantity
            + (b.matchOrders oRef ((b.getLevel lref).orders.getD 0 0)
                (b.getLevel lref).price).2.quantity
        ∧ ((b3.getOrder oRef).isFilled = true →
            (b3.getOrder oRef).status = OrderStatus.Filled
            ∧ alLookup b3.unfilled (b.getOrder oRef).id = none)
        ∧ ((b3.getOrder oRef).isFilled = false →
            (b3.getOrder oRef).status = OrderStatus.Partial)
        ∧ ((b3.getOrder ((b.getLevel lref).orders.getD 0 0)).isFilled = true →
            (b3.getOrder ((b.getLevel lref).orders.getD 0 0)).status = OrderStatus.Filled
            ∧ alLookup b3.unfilled
                (b.getOrder ((b.getLevel lref).orders.getD 0 0)).id = none)
        ∧ ((b3.getOrder ((b.getLevel lref).orders.getD 0 0)).isFilled = false →
            (b3.getOrder ((b.getLevel lref).orders.getD 0 0)).status = OrderStatus.Partial))
    ∧ (∀ (fuel : Nat) (b : Book) (oRef : Nat) (acc : List Trade) (lref : Nat) (rest : List Nat),
      b.bids = lref :: rest →
      (b.getOrder oRef).remaining > 0 →
      (b.getLevel lref).isEmpty = false →
      (b.getOrder oRef).price ≤ (b.getLevel lref).price →
      ((b.getLevel lref).orders.getD 0 0) ≠ oRef →
      ∃ b3,
        limitAskLoop (fuel + 1) b oRef acc
          = limitAskLoop fuel b3 oRef
              (acc ++ [(b.matchOrders ((b.getLevel lref).orders.getD 0 0) oRef
                         (b.getLevel lref).price).2])
        ∧ b3.trades = b.trades
            ++ [(b.matchOrders ((b.getLevel lref).orders.getD 0 0) oRef
                  (b.getLevel lref).price).2]
        ∧ (b.matchOrders ((b.getLevel lref).orders.getD 0 0) oRef
            (b.getLevel lref).price).2.quantity
          = min (b.getOrder ((b.getLevel lref).orders.getD 0 0)).remaining
              (b.getOrder oRef).remaining
        ∧ (b3.getOrder oRef).filledQuantity
          = (b.getOrder oRef).filledQuantity
            + (b.matchOrders ((b.getLevel lref).orders.getD 0 0) oRef
                (b.getLevel lref).price).2.quantity
        ∧ (b3.getOrder ((b.getLevel lref).orders.getD 0 0)).filledQuantity
          = (b.getOrder ((b.getLevel lref).orders.getD 0 0)).filledQuantity
            + (b.matchOrders ((b.getLevel lref).orders.getD 0 0) oRef
                (b.getLevel lref).price).2.quantity
        ∧ ((b3.getOrder oRef).isFilled = true →
            (b3.getOrder oRef).status = OrderStatus.Filled
            ∧ alLookup b3.unfilled (b.getOrder oRef).id = none)
        ∧ ((b3.getOrder oRef).isFilled = false →
            (b3.getOrder oRef).status = OrderStatus.Partial)
        ∧ ((b3.getOrder ((b.getLevel lref).orders.getD 0 0)).isFilled = true →
            (b3.getOrder ((b.getLevel lref).orders.getD 0 0)).status = OrderStatus.Filled
            ∧ alLookup b3.unfilled
                (b.getOrder ((b.getLevel lref).orders.getD 0 0)).id = none)
        ∧ ((b3.getOrder ((b.getLevel lref).orders.getD 0 0)).isFilled = false →
            (b3.getOrder ((b.getLevel lref).orders.getD 0 0)).status = OrderStatus.Partial)) := by
  constructor
  · intro fuel b oRef acc lref rest hasks hrem hemp hcross hne
    obtain ⟨b3, hok, hords, hunf, htr⟩ :=
      cleanupPriceLevel_ok_ask
        (afterMatch b oRef ((b.getLevel lref).orders.getD 0 0) (b.getLevel lref).price) lref
        (by
          show ((b.matchOrders oRef _ _).1.asks ≠ [])
          rw [matchOrders_fst_asks, hasks]
          simp)
    have hords' : b3.orders
        = (b.matchOrders oRef ((b.getLevel lref).orders.getD 0 0) (b.getLevel lref).price).1.orders := hords
    have hget : ∀ r, b3.getOrder r
        = (b.matchOrders oRef ((b.getLevel lref).orders.getD 0 0) (b.getLevel lref).price).1.getOrder r :=
      fun r => getOrder_congr _ _ hords' r
    have hunf' : b3.unfilled
        = (b.matchOrders oRef ((b.getLevel lref).orders.getD 0 0) (b.getLevel lref).price).1.unfilled := hunf
    obtain ⟨hq, hfb, hfs, hxf, hxp, hyf, hyp⟩ :=
      matchOrders_contract b oRef ((b.getLevel lref).orders.getD 0 0) (b.getLevel lref).price hne
    refine ⟨b3, ?_, ?_, hq, ?_, ?_, ?_, ?_, ?_, ?_⟩
    · rw [limitBidLoop_step fuel b oRef acc lref rest hasks hrem hemp hcross]
      have : (afterMatch b oRef ((b.getLevel lref).orders.getD 0 0)
          (b.getLevel lref).price).cleanupPriceLevel lref false = .ok b3 := hok
      rw [this]
    · rw [htr]
      show (b.matchOrders oRef _ _).1.trades ++ _ = _
      rw [matchOrders_fst_trades]
    · rw [hget]; exact hfb
    · rw [hget]; exact hfs
    · rw [hget, hunf']; exact hxf
    · rw [hget]; exact hxp
    · rw [hget, hunf']; exact hyf
    · rw [hget]; exact hyp
  · intro fuel b oRef acc lref rest hbids hrem hemp hcross hne
    obtain ⟨b3, hok, hords, hunf, htr⟩ :=
      cleanupPriceLevel_ok_bid
        (afterMatch b ((b.getLevel lref).orders.getD 0 0) oRef (b.getLevel lref).price) lref
        (by
          show ((b.matchOrders _ oRef _).1.bids ≠ [])
          rw [matchOrders_fst_bids, hbids]
          simp)
    have hords' : b3.orders
        = (b.matchOrders ((b.getLevel lref).orders.getD 0 0) oRef (b.getLevel lref).price).1.orders := hords
    have hget : ∀ r, b3.getOrder r
        = (b.matchOrders ((b.getLevel lref).orders.getD 0 0) oRef (b.getLevel lref).price).1.getOrder r :=
      fun r => getOrder_congr _ _ hords' r
    have hunf' : b3.unfilled
        = (b.matchOrders ((b.getLevel lref).orders.getD 0 0) oRef (b.getLevel lref).price).1.unfilled := hunf
    obtain ⟨hq, hfb, hfs, hxf, hxp, hyf, hyp⟩ :=
      matchOrders_contract b ((b.getLevel lref).orders.getD 0 0) oRef (b.getLevel lref).price hne
    refine ⟨b3, ?_, ?_, hq, ?_, ?_, ?_, ?_, ?_, ?_⟩
    · rw [limitAskLoop_step fuel b oRef acc lref rest hbids hrem hemp hcross]
      have : (afterMatch b ((b.getLevel lref).orders.getD 0 0) oRef
          (b.getLevel lref).price).cleanupPriceLevel lref true = .ok b3 := hok
      rw [this]
    · rw [htr]
      show (b.matchOrders _ oRef _).1.trades ++ _ = _
      rw [matchOrders_fst_trades]
    · rw [hget]; exact hfs
    · rw [hget]; exact hfb
    · rw [hget, hunf']; exact hyf
    · rw [hget]; exact hyp
    · rw [hget, hunf']; exact hxf
    · rw [hget]; exact hxp

/-- Witness for C1: both limit branches instantiated on concrete books. -/
theorem C1_matching_primitive_witness :
    (∃ b3, limitBidLoop 6 stepBook 2 []
        = limitBidLoop 5 b3 2
            ([] ++ [(stepBook.matchOrders 2 ((stepBook.getLevel 1).orders.getD 0 0)
                      (stepBook.getLevel 1).price).2])
      ∧ b3.trades = stepBook.trades
          ++ [(stepBook.matchOrders 2 ((stepBook.getLevel 1).orders.getD 0 0)
                (stepBook.getLevel 1).price).2])
    ∧ (∃ b3, limitAskLoop 6 stepBook2 2 []
        = limitAskLoop 5 b3 2
            ([] ++ [(stepBook2.matchOrders ((stepBook2.getLevel 1).orders.getD 0 0) 2
                      (stepBook2.getLevel 1).price).2])
      ∧ b3.trades = stepBook2.trades
          ++ [(stepBook2.matchOrders ((stepBook2.getLevel 1).orders.getD 0 0) 2
                (stepBook2.getLevel 1).price).2]) := by
  constructor
  · obtain ⟨b3, h1, h2, _⟩ := C1_matching_primitive.1 5 stepBook 2 [] 1 []
      (by decide) (by decide) (by decide) (by decide) (by decide)
    exact ⟨b3, h1, h2⟩
  · obtain ⟨b3, h1, h2, _⟩ := C1_matching_primitive.2 5 stepBook2 2 [] 1 []
      (by decide) (by decide) (by decide) (by decide) (by decide)
    exact ⟨b3, h1, h2⟩

/-- C2: every trade produced by a matching iteration — on the limit paths
and on the market paths — carries the price of the resting level it matched
against (the maker's price); when the incoming order's price differs from
that level price, the trade price differs from the taker's price.  (For the
market-Ask path the Go source cleans the consumed bid level up with
`isBid = false`, popping the ask heap, so that heap must be non-empty for
the iteration to complete without panicking.) -/
theorem C2_maker_price :
    (∀ (fuel : Nat) (b : Book) (oRef : Nat) (acc : List Trade) (lref : Nat) (rest : List Nat),
      b.asks = lref :: rest →
      (b.getOrder oRef).remaining > 0 →
      (b.getLevel lref).isEmpty = false →
      (b.getOrder oRef).price ≥ (b.getLevel lref).price →
      ∃ b3,
        limitBidLoop (fuel + 1) b oRef acc
          = limitBidLoop fuel b3 oRef
              (acc ++ [(b.matchOrders oRef ((b.getLevel lref).orders.getD 0 0)
                         (b.getLevel lref).price).2])
        ∧ (b.matchOrders oRef ((b.getLevel lref).orders.getD 0 0)
            (b.getLevel lref).price).2.price = (b.getLevel lref).price
        ∧ ((b.getOrder oRef).price ≠ (b.getLevel lref).price →
            (b.matchOrders oRef ((b.getLevel lref).orders.getD 0 0)
              (b.getLevel lref).price).2.price ≠ (b.getOrder oRef).price))
    ∧ (∀ (fuel : Nat) (b : Book) (oRef : Nat) (acc : List Trade) (lref : Nat) (rest : List Nat),
      b.bids = lref :: rest →
      (b.getOrder oRef).remaining > 0 →
      (b.getLevel lref).isEmpty = false →
      (b.getOrder oRef).price ≤ (b.getLevel lref).price →
      ∃ b3,
        limitAskLoop (fuel + 1) b oRef acc
          = limitAskLoop fuel b3 oRef
              (acc ++ [(b.matchOrders ((b.getLevel lref).orders.getD 0 0) oRef
                         (b.getLevel lref).price).2])
        ∧ (b.matchOrders ((b.getLevel lref).orders.getD 0 0) oRef
            (b.getLevel lref).price).2.price = (b.getLevel lref).price
        ∧ ((b.getOrder oRef).price ≠ (b.getLevel lref).price →
            (b.matchOrders ((b.getLevel lref).orders.getD 0 0) oRef
              (b.getLevel lref).price).2.price ≠ (b.getOrder oRef).price))
    ∧ (∀ (fuel : Nat) (b : Book) (oRef : Nat) (acc : List Trade) (lref : Nat) (rest : List Nat),
      b.asks = lref :: rest →
      (b.getOrder oRef).remaining > 0 →
      (b.getLevel lref).isEmpty = false →
      ∃ b3,
        marketBidLoop (fuel + 1) b oRef acc
          = marketBidLoop fuel b3 oRef
              (acc ++ [(b.matchOrders oRef ((b.getLevel lref).orders.getD 0 0)
                         (b.getLevel lref).price).2])
        ∧ (b.matchOrders oRef ((b.getLevel lref).orders.getD 0 0)
            (b.getLevel lref).price).2.price = (b.getLevel lref).price
        ∧ ((b.getOrder oRef).price ≠ (b.getLevel lref).price →
            (b.matchOrders oRef ((b.getLevel lref).orders.getD 0 0)
              (b.getLevel lref).price).2.price ≠ (b.getOrder oRef).price))
    ∧ (∀ (fuel : Nat) (b : Book) (oRef : Nat) (acc : List Trade) (lref : Nat) (rest : List Nat),
      b.bids = lref :: rest →
      b.asks ≠ [] →
      (b.getOrder oRef).remaining > 0 →
      (b.getLevel lref).isEmpty = false →
      ∃ b3,
        marketAskLoop (fuel + 1) b oRef acc
          = marketAskLoop fuel b3 oRef
              (acc ++ [(b.matchOrders oRef ((b.getLevel lref).orders.getD 0 0)
                         (b.getLevel lref).price).2])
        ∧ (b.matchOrders oRef ((b.getLevel lref).orders.getD 0 0)
            (b.getLevel lref).price).2.price = (b.getLevel lref).price
        ∧ ((b.getOrder oRef).price ≠ (b.getLevel lref).price →
            (b.matchOrders oRef ((b.getLevel lref).orders.getD 0 0)
              (b.getLevel lref).price).2.price ≠ (b.getOrder oRef).price)) := by
  refine ⟨?_, ?_, ?_, ?_⟩
  · intro fuel b oRef acc lref rest hasks hrem hemp hcross
    obtain ⟨b3, hok, _, _, _⟩ :=
      cleanupPriceLevel_ok_ask
        (afterMatch b oRef ((b.getLevel lref).orders.getD 0 0) (b.getLevel lref).price) lref
        (by
          show ((b.matchOrders oRef _ _).1.asks ≠ [])
          rw [matchOrders_fst_asks, hasks]; simp)
    refine ⟨b3, ?_, matchOrders_trade_price _ _ _ _, ?_⟩
    · rw [limitBidLoop_step fuel b oRef acc lref rest hasks hrem hemp hcross, hok]
    · intro hd
      rw [matchOrders_trade_price]
      exact Ne.symm hd
  · intro fuel b oRef acc lref rest hbids hrem hemp hcross
    obtain ⟨b3, hok, _, _, _⟩ :=
      cleanupPriceLevel_ok_bid
        (afterMatch b ((b.getLevel lref).orders.getD 0 0) oRef (b.getLevel lref).price) lref
        (by
          show ((b.matchOrders _ oRef _).1.bids ≠ [])
          rw [matchOrders_fst_bids, hbids]; simp)
    refine ⟨b3, ?_, matchOrders_trade_price _ _ _ _, ?_⟩
    · rw [limitAskLoop_step fuel b oRef acc lref rest hbids hrem hemp hcross, hok]
    · intro hd
      rw [matchOrders_trade_price]
      exact Ne.symm hd
  · intro fuel b oRef acc lref rest hasks hrem hemp
    obtain ⟨b3, hok, _, _, _⟩ :=
      cleanupPriceLevel_ok_ask
        (afterMatch b oRef ((b.getLevel lref).orders.getD 0 0) (b.getLevel lref).price) lref
        (by
          show ((b.matchOrders oRef _ _).1.asks ≠ [])
          rw [matchOrders_fst_asks, hasks]; simp)
    refine ⟨b3, ?_, matchOrders_trade_price _ _ _ _, ?_⟩
    · rw [marketBidLoop_step fuel b oRef acc lref rest hasks hrem hemp, hok]
    · intro hd
      rw [matchOrders_trade_price]
      exact Ne.symm hd
  · intro fuel b oRef acc lref rest hbids hasksne hrem hemp
    obtain ⟨b3, hok, _, _, _⟩ :=
      cleanupPriceLevel_ok_ask
        (afterMatch b oRef ((b.getLevel lref).orders.getD 0 0) (b.getLevel lref).price) lref
        (by
          show ((b.matchOrders oRef _ _).1.asks ≠ [])
          rw [matchOrders_fst_asks]; exact hasksne)
    refine ⟨b3, ?_, matchOrders_trade_price _ _ _ _, ?_⟩
    · rw [marketAskLoop_step fuel b oRef acc lref rest hbids hrem hemp, hok]
    · intro hd
      rw [matchOrders_trade_price]
      exact Ne.symm hd

/-- Witness for C2: all four matching paths instantiated on concrete books. -/
theorem C2_maker_price_witness :
    (∃ b3, limitBidLoop 6 stepBook 2 []
        = limitBidLoop 5 b3 2
            ([] ++ [(stepBook.matchOrders 2 ((stepBook.getLevel 1).orders.getD 0 0)
                      (stepBook.getLevel 1).price).2])
      ∧ (stepBook.matchOrders 2 ((stepBook.getLevel 1).orders.getD 0 0)
          (stepBook.getLevel 1).price).2.price = (stepBook.getLevel 1).price)
    ∧ (∃ b3, limitAskLoop 6 stepBook2 2 []
        = limitAskLoop 5 b3 2
            ([] ++ [(stepBook2.matchOrders ((stepBook2.getLevel 1).orders.getD 0 0) 2
                      (stepBook2.getLevel 1).price).2])
      ∧ (stepBook2.matchOrders ((stepBook2.getLevel 1).orders.getD 0 0) 2
          (stepBook2.getLevel 1).price).2.price = (stepBook2.getLevel 1).price)
    ∧ (∃ b3, marketBidLoop 6 stepBook 2 []
        = marketBidLoop 5 b3 2
            ([] ++ [(stepBook.matchOrders 2 ((stepBook.getLevel 1).orders.getD 0 0)
                      (stepBook.getLevel 1).price).2])
      ∧ (stepBook.matchOrders 2 ((stepBook.getLevel 1).orders.getD 0 0)
          (stepBook.getLevel 1).price).2.price = (stepBook.getLevel 1).price)
    ∧ (∃ b3, marketAskLoop 6 stepBook3 2 []
        = marketAskLoop 5 b3 2
            ([] ++ [(stepBook3.matchOrders 2 ((stepBook3.getLevel 1).orders.getD 0 0)
                      (stepBook3.getLevel 1).price).2])
      ∧ (stepBook3.matchOrders 2 ((stepBook3.getLevel 1).orders.getD 0 0)
          (stepBook3.getLevel 1).price).2.price = (stepBook3.getLevel 1).price) := by
  refine ⟨?_, ?_, ?_, ?_⟩
  · obtain ⟨b3, h1, h2, _⟩ := C2_maker_price.1 5 stepBook 2 [] 1 []
      (by decide) (by decide) (by decide) (by decide)
    exact ⟨b3, h1, h2⟩
  · obtain ⟨b3, h1, h2, _⟩ := C2_maker_price.2.1 5 stepBook2 2 [] 1 []
      (by decide) (by decide) (by decide) (by decide)
    exact ⟨b3, h1, h2⟩
  · obtain ⟨b3, h1, h2, _⟩ := C2_maker_price.2.2.1 5 stepBook 2 [] 1 []
      (by decide) (by decide) (by decide)
    exact ⟨b3, h1, h2⟩
  · obtain ⟨b3, h1, h2, _⟩ := C2_maker_price.2.2.2 5 stepBook3 2 [] 1 []
      (by decide) (by decide) (by decide) (by decide)
    exact ⟨b3, h1, h2⟩

/-- C3: an incoming limit Bid matches only while its price is at least the
best ask level's price, an incoming limit Ask only while its price is at
most the best bid level's price; when the crossing rule fails the loop
stops with the book untouched, and (Scenario D) a limit Bid at 90 against a
single resting Ask at 100 produces zero trades, leaves the Ask level
untouched and rests at its own price 90. -/
theorem C3_crossing_rule :
    (∀ (fuel : Nat) (b : Book) (oRef : Nat) (acc : List Trade) (lref : Nat) (rest : List Nat),
      b.asks = lref :: rest →
      (b.getOrder oRef).remaining > 0 →
      (b.getLevel lref).isEmpty = false →
      ¬ ((b.getOrder oRef).price ≥ (b.getLevel lref).price) →
      limitBidLoop (fuel + 1) b oRef acc = .ok (b, acc))
    ∧ (∀ (fuel : Nat) (b : Book) (oRef : Nat) (acc : List Trade) (lref : Nat) (rest : List Nat),
      b.bids = lref :: rest →
      (b.getOrder oRef).remaining > 0 →
      (b.getLevel lref).isEmpty = false →
      ¬ ((b.getOrder oRef).price ≤ (b.getLevel lref).price) →
      limitAskLoop (fuel + 1) b oRef acc = .ok (b, acc))
    ∧ (exTrades scenarioD = []
      ∧ (exBook scenarioD).asks = [1]
      ∧ (exBook scenarioD).getLevel 1 = ⟨100, [0], 1⟩
      ∧ (exBook scenarioD).getOrder 0 = ⟨"a2", .Ask, .Limit, .Pending, 100, 1, 0⟩
      ∧ alLookup (exBook scenarioD).askLevels 100 = some 1
      ∧ alLookup (exBook scenarioD).bidLevels 90 = some 3
      ∧ (exBook scenarioD).getLevel 3 = ⟨90, [2], 1⟩
      ∧ (exBook scenarioD).getOrder 2 = ⟨"b1", .Bid, .Limit, .Pending, 90, 1, 0⟩
      ∧ alLookup (exBook scenarioD).unfilled "b1" = some 2) := by
  refine ⟨?_, ?_, ?_⟩
  · intro fuel b oRef acc lref rest h1 h2 h3 h4
    exact limitBidLoop_stop fuel b oRef acc lref rest h1 h2 h3 h4
  · intro fuel b oRef acc lref rest h1 h2 h3 h4
    exact limitAskLoop_stop fuel b oRef acc lref rest h1 h2 h3 h4
  · decide

/-- Witness for C3: the two stop branches instantiated on concrete books. -/
theorem C3_crossing_rule_witness :
    limitBidLoop 6 stepBookLow 2 [] = .ok (stepBookLow, [])
    ∧ limitAskLoop 6 stepBook2High 2 [] = .ok (stepBook2High, []) :=
  ⟨C3_crossing_rule.1 5 stepBookLow 2 [] 1 []
      (by decide) (by decide) (by decide) (by decide),
   C3_crossing_rule.2.1 5 stepBook2High 2 [] 1 []
      (by decide) (by decide) (by decide) (by decide)⟩

/-- C4: a market Bid on an empty book yields zero trades, status `Cancelled`
and nothing inserted (Scenario C of the spec holds), but a market Ask that
consumes a bid level panics: `cleanupPriceLevel` is called with
`isBid = false` for a bid level, so Go pops the *ask* heap, and on an empty
ask heap `container/heap.Pop` indexes at `-1`.  The unfilled remainder is
never marked `Cancelled`; the claim fails for market Asks. -/
theorem C4_market_order :
    (placeOrder 20 emptyBook (mkOrder "m1" OrderSide.Bid OrderType.Market 0 1)
        = .ok (⟨[(0, ⟨"m1", .Bid, .Market, .Cancelled, 0, 1, 0⟩)],
                 [], [], [], [], [], [], [], 1⟩, 0, [])
      ∧ (placeOrder 20 emptyBook (mkOrder "m1" OrderSide.Bid OrderType.Market 0 1)).map
          (fun r => (r.1.getOrder r.2.1).status) = .ok OrderStatus.Cancelled)
    ∧ placeOrder 20 oneBidBook (mkOrder "m2" OrderSide.Ask OrderType.Market 0 2)
        = Except.error "panic" := by
  refine ⟨⟨?_, ?_⟩, ?_⟩ <;> rfl

/-- C5: after cancelling order `"b2"` (price 90) while `"b1"` (price 100)
also rests, the bid heap holds exactly the price-90 level while the bid
lookup table holds exactly price 100: the two price sets differ, violating
the lookup-equals-heap invariant after a completed `CancelOrder`. -/
theorem C5_price_sets_diverge :
    cancelledBook.bids.map (fun r => (cancelledBook.getLevel r).price) = [90]
    ∧ cancelledBook.bidLevels.map Prod.fst = [100]
    ∧ (90 : ℤ) ∈ cancelledBook.bids.map (fun r => (cancelledBook.getLevel r).price)
    ∧ (90 : ℤ) ∉ cancelledBook.bidLevels.map Prod.fst := by
  refine ⟨?_, ?_, ?_, ?_⟩ <;> decide

/-- C6: in the same cancelled book, the price-100 level still holds the
live order `"b1"` (status Pending, remaining 1 > 0) yet is no longer in the
bid heap, while the emptied price-90 level is still in the heap — both
directions of the reachability biconditional fail after `CancelOrder`. -/
theorem C6_reachability_violated :
    alLookup cancelledBook.bidLevels 100 = some 1
    ∧ (cancelledBook.getLevel 1).orders = [0]
    ∧ (cancelledBook.getOrder 0).status = OrderStatus.Pending
    ∧ (cancelledBook.getOrder 0).remaining > 0
    ∧ (1 : Nat) ∉ cancelledBook.bids
    ∧ (3 : Nat) ∈ cancelledBook.bids
    ∧ (cancelledBook.getLevel 3).orders = [] := by
  refine ⟨?_, ?_, ?_, ?_, ?_, ?_, ?_⟩ <;> decide

/-- C7: time priority within a price.  A level's order sequence is kept
oldest-first by `AddOrder` (append), `RemoveFilledOrders` (as run by
`cleanupPriceLevel`) keeps exactly the unfilled orders in their original
order (a filter), and every match taken during limit or market processing
consumes the first order of the peeked best level: the minted trade names
that order and its filled quantity grows by the trade quantity. -/
theorem C7_time_priority :
    (∀ (l : Level) (oRef : Nat) (rem : ℤ),
      (l.addOrder oRef rem).orders = l.orders ++ [oRef])
    ∧ (∀ (b : Book) (lref : Nat) (isBid : Bool) (b' : Book),
      b.cleanupPriceLevel lref isBid = .ok b' →
      (b'.getLevel lref).orders
        = (b.getLevel lref).orders.filter (fun r => !(b.getOrder r).isFilled))
    ∧ (∀ (fuel : Nat) (b : Book) (oRef : Nat) (acc : List Trade) (lref : Nat) (rest : List Nat),
      b.asks = lref :: rest →
      (b.getOrder oRef).remaining > 0 →
      (b.getLevel lref).isEmpty = false →
      (b.getOrder oRef).price ≥ (b.getLevel lref).price →
      oRef ≠ (b.getLevel lref).orders.getD 0 0 →
      ∃ b3,
        limitBidLoop (fuel + 1) b oRef acc
          = limitBidLoop fuel b3 oRef
              (acc ++ [(b.matchOrders oRef ((b.getLevel lref).orders.getD 0 0)
                         (b.getLevel lref).price).2])
        ∧ (b.matchOrders oRef ((b.getLevel lref).orders.getD 0 0)
            (b.getLevel lref).price).2.sellOrderId
          = (b.getOrder ((b.getLevel lref).orders.getD 0 0)).id
        ∧ (b3.getOrder ((b.getLevel lref).orders.getD 0 0)).filledQuantity
          = (b.getOrder ((b.getLevel lref).orders.getD 0 0)).filledQuantity
            + (b.matchOrders oRef ((b.getLevel lref).orders.getD 0 0)
                (b.getLevel lref).price).2.quantity)
    ∧ (∀ (fuel : Nat) (b : Book) (oRef : Nat) (acc : List Trade) (lref : Nat) (rest : List Nat),
      b.bids = lref :: rest →
      (b.getOrder oRef).remaining > 0 →
      (b.getLevel lref).isEmpty = false →
      (b.getOrder oRef).price ≤ (b.getLevel lref).price →
      ((b.getLevel lref).orders.getD 0 0) ≠ oRef →
      ∃ b3,
        limitAskLoop (fuel + 1) b oRef acc
          = limitAskLoop fuel b3 oRef
              (acc ++ [(b.matchOrders ((b.getLevel lref).orders.getD 0 0) oRef
                         (b.getLevel lref).price).2])
        ∧ (b.matchOrders ((b.getLevel lref).orders.getD 0 0) oRef
            (b.getLevel lref).price).2.buyOrderId
          = (b.getOrder ((b.getLevel lref).orders.getD 0 0)).id
        ∧ (b3.getOrder ((b.getLevel lref).orders.getD 0 0)).filledQuantity
          = (b.getOrder ((b.getLevel lref).orders.getD 0 0)).filledQuantity
            + (b.matchOrders ((b.getLevel lref).orders.getD 0 0) oRef
                (b.getLevel lref).price).2.quantity)
    ∧ (∀ (fuel : Nat) (b : Book) (oRef : Nat) (acc : List Trade) (lref : Nat) (rest : List Nat),
      b.asks = lref :: rest →
      (b.getOrder oRef).remaining > 0 →
      (b.getLevel lref).isEmpty = false →
      oRef ≠ (b.getLevel lref).orders.getD 0 0 →
      ∃ b3,
        marketBidLoop (fuel + 1) b oRef acc
          = marketBidLoop fuel b3 oRef
              (acc ++ [(b.matchOrders oRef ((b.getLevel lref).orders.getD 0 0)
                         (b.getLevel lref).price).2])
        ∧ (b.matchOrders oRef ((b.getLevel lref).orders.getD 0 0)
            (b.getLevel lref).price).2.sellOrderId
          = (b.getOrder ((b.getLevel lref).orders.getD 0 0)).id
        ∧ (b3.getOrder ((b.getLevel lref).orders.getD 0 0)).filledQuantity
          = (b.getOrder ((b.getLevel lref).orders.getD 0 0)).filledQuantity
            + (b.matchOrders oRef ((b.getLevel lref).orders.getD 0 0)
                (b.getLevel lref).price).2.quantity)
    ∧ (∀ (fuel : Nat) (b : Book) (oRef : Nat) (acc : List Trade) (lref : Nat) (rest : List Nat),
      b.bids = lref :: rest →
      b.asks ≠ [] →
      (b.getOrder oRef).remaining > 0 →
      (b.getLevel lref).isEmpty = false →
      oRef ≠ (b.getLevel lref).orders.getD 0 0 →
      ∃ b3,
        marketAskLoop (fuel + 1) b oRef acc
          = marketAskLoop fuel b3 oRef
              (acc ++ [(b.matchOrders oRef ((b.getLevel lref).orders.getD 0 0)
                         (b.getLevel lref).price).2])
        ∧ (b.matchOrders oRef ((b.getLevel lref).orders.getD 0 0)
            (b.getLevel lref).price).2.sellOrderId
          = (b.getOrder ((b.getLevel lref).orders.getD 0 0)).id
        ∧ (b3.getOrder ((b.getLevel lref).orders.getD 0 0)).filledQuantity
          = (b.getOrder ((b.getLevel lref).orders.getD 0 0)).filledQuantity
            + (b.matchOrders oRef ((b.getLevel lref).orders.getD 0 0)
                (b.getLevel lref).price).2.quantity) := by
  refine ⟨?_, ?_, ?_, ?_, ?_, ?_⟩
  · intro l oRef rem
    rfl
  · intro b lref isBid b' h
    unfold Book.cleanupPriceLevel at h
    dsimp only at h
    split at h
    · split at h
      · split at h
        · exact absurd h (by simp)
        · simp only [Except.ok.injEq] at h
          subst h
          simp
      · split at h
        · exact absurd h (by simp)
        · simp only [Except.ok.injEq] at h
          subst h
          simp
    · simp only [Except.ok.injEq] at h
      subst h
      simp
  · intro fuel b oRef acc lref rest hasks hrem hemp hcross hne
    obtain ⟨b3, hok, hords, _, _⟩ :=
      cleanupPriceLevel_ok_ask
        (afterMatch b oRef ((b.getLevel lref).orders.getD 0 0) (b.getLevel lref).price) lref
        (by
          show ((b.matchOrders oRef _ _).1.asks ≠ [])
          rw [matchOrders_fst_asks, hasks]; simp)
    obtain ⟨_, _, hfs, _, _, _, _⟩ :=
      matchOrders_contract b oRef ((b.getLevel lref).orders.getD 0 0) (b.getLevel lref).price hne
    refine ⟨b3, ?_, matchOrders_trade_sellId _ _ _ _ hne, ?_⟩
    · rw [limitBidLoop_step fuel b oRef acc lref rest hasks hrem hemp hcross, hok]
    · rw [getOrder_congr _ _ hords]
      exact hfs
  · intro fuel b oRef acc lref rest hbids hrem hemp hcross hne
    obtain ⟨b3, hok, hords, _, _⟩ :=
      cleanupPriceLevel_ok_bid
        (afterMatch b ((b.getLevel lref).orders.getD 0 0) oRef (b.getLevel lref).price) lref
        (by
          show ((b.matchOrders _ oRef _).1.bids ≠ [])
          rw [matchOrders_fst_bids, hbids]; simp)
    obtain ⟨_, hfb, _, _, _, _, _⟩ :=
      matchOrders_contract b ((b.getLevel lref).orders.getD 0 0) oRef (b.getLevel lref).price hne
    refine ⟨b3, ?_, matchOrders_trade_buyId _ _ _ _ hne, ?_⟩
    · rw [limitAskLoop_step fuel b oRef acc lref rest hbids hrem hemp hcross, hok]
    · rw [getOrder_congr _ _ hords]
      exact hfb
  · intro fuel b oRef acc lref rest hasks hrem hemp hne
    obtain ⟨b3, hok, hords, _, _⟩ :=
      cleanupPriceLevel_ok_ask
        (afterMatch b oRef ((b.getLevel lref).orders.getD 0 0) (b.getLevel lref).price) lref
        (by
          show ((b.matchOrders oRef _ _).1.asks ≠ [])
          rw [matchOrders_fst_asks, hasks]; simp)
    obtain ⟨_, _, hfs, _, _, _, _⟩ :=
      matchOrders_contract b oRef ((b.getLevel lref).orders.getD 0 0) (b.getLevel lref).price hne
    refine ⟨b3, ?_, matchOrders_trade_sellId _ _ _ _ hne, ?_⟩
    · rw [marketBidLoop_step fuel b oRef acc lref rest hasks hrem hemp, hok]
    · rw [getOrder_congr _ _ hords]
      exact hfs
  · intro fuel b oRef acc lref rest hbids hasksne hrem hemp hne
    obtain ⟨b3, hok, hords, _, _⟩ :=
      cleanupPriceLevel_ok_ask
        (afterMatch b oRef ((b.getLevel lref).orders.getD 0 0) (b.getLevel lref).price) lref
        (by
          show ((b.matchOrders oRef _ _).1.asks ≠ [])
          rw [matchOrders_fst_asks]; exact hasksne)
    obtain ⟨_, _, hfs, _, _, _, _⟩ :=
      matchOrders_contract b oRef ((b.getLevel lref).orders.getD 0 0) (b.getLevel lref).price hne
    refine ⟨b3, ?_, matchOrders_trade_sellId _ _ _ _ hne, ?_⟩
    · rw [marketAskLoop_step fuel b oRef acc lref rest hbids hrem hemp, hok]
    · rw [getOrder_congr _ _ hords]
      exact hfs

/-- Witness for C7: each part instantiated on a concrete level or book. -/
theorem C7_time_priority_witness :
    ((⟨100, [0], 1⟩ : Level).addOrder 5 1).orders = (⟨100, [0], 1⟩ : Level).orders ++ [5]
    ∧ ((exClean (stepBook.cleanupPriceLevel 1 false)).getLevel 1).orders
        = (stepBook.getLevel 1).orders.filter (fun r => !(stepBook.getOrder r).isFilled)
    ∧ (∃ b3, limitBidLoop 6 stepBook 2 []
        = limitBidLoop 5 b3 2
            ([] ++ [(stepBook.matchOrders 2 ((stepBook.getLevel 1).orders.getD 0 0)
                      (stepBook.getLevel 1).price).2])
      ∧ (stepBook.matchOrders 2 ((stepBook.getLevel 1).orders.getD 0 0)
          (stepBook.getLevel 1).price).2.sellOrderId
        = (stepBook.getOrder ((stepBook.getLevel 1).orders.getD 0 0)).id)
    ∧ (∃ b3, limitAskLoop 6 stepBook2 2 []
        = limitAskLoop 5 b3 2
            ([] ++ [(stepBook2.matchOrders ((stepBook2.getLevel 1).orders.getD 0 0) 2
                      (stepBook2.getLevel 1).price).2])
      ∧ (stepBook2.matchOrders ((stepBook2.getLevel 1).orders.getD 0 0) 2
          (stepBook2.getLevel 1).price).2.buyOrderId
        = (stepBook2.getOrder ((stepBook2.getLevel 1).orders.getD 0 0)).id)
    ∧ (∃ b3, marketBidLoop 6 stepBook 2 []
        = marketBidLoop 5 b3 2
            ([] ++ [(stepBook.matchOrders 2 ((stepBook.getLevel 1).orders.getD 0 0)
                      (stepBook.getLevel 1).price).2]))
    ∧ (∃ b3, marketAskLoop 6 stepBook3 2 []
        = marketAskLoop 5 b3 2
            ([] ++ [(stepBook3.matchOrders 2 ((stepBook3.getLevel 1).orders.getD 0 0)
                      (stepBook3.getLevel 1).price).2])) := by
  refine ⟨?_, ?_, ?_, ?_, ?_, ?_⟩
  · exact C7_time_priority.1 ⟨100, [0], 1⟩ 5 1
  · exact C7_time_priority.2.1 stepBook 1 false _ rfl
  · obtain ⟨b3, h1, h2, _⟩ := C7_time_priority.2.2.1 5 stepBook 2 [] 1 []
      (by decide) (by decide) (by decide) (by decide) (by decide)
    exact ⟨b3, h1, h2⟩
  · obtain ⟨b3, h1, h2, _⟩ := C7_time_priority.2.2.2.1 5 stepBook2 2 [] 1 []
      (by decide) (by decide) (by decide) (by decide) (by decide)
    exact ⟨b3, h1, h2⟩
  · obtain ⟨b3, h1, _, _⟩ := C7_time_priority.2.2.2.2.1 5 stepBook 2 [] 1 []
      (by decide) (by decide) (by decide) (by decide)
    exact ⟨b3, h1⟩
  · obtain ⟨b3, h1, _, _⟩ := C7_time_priority.2.2.2.2.2 5 stepBook3 2 [] 1 []
      (by decide) (by decide) (by decide) (by decide) (by decide)
    exact ⟨b3, h1⟩

/-- C8 counterexample: with one resting bid at 100 and an empty ask side,
`GetBestBidAsk` returns the sentinel 0 for the ask price together with the
shared flag `true`; it does not report a per-side "no value". -/
theorem C8_counterexample :
    oneBidBook.asks = [] ∧ getBestBidAsk oneBidBook = (100, 0, true) := by
  exact ⟨rfl, by decide⟩

/-- C8 as amended: `GetBestBidAsk` returns two prices and one shared flag;
the flag is true exactly when at least one side is non-empty, a non-empty
side reports its heap-top level price, and an empty side reports the
sentinel 0. -/
theorem C8_shared_flag (b : Book) :
    ((getBestBidAsk b).2.2 = true ↔ (b.bids ≠ [] ∨ b.asks ≠ []))
    ∧ (b.bids = [] → (getBestBidAsk b).1 = 0)
    ∧ (∀ (r : Nat) (rest : List Nat), b.bids = r :: rest →
        (getBestBidAsk b).1 = (b.getLevel r).price)
    ∧ (b.asks = [] → (getBestBidAsk b).2.1 = 0)
    ∧ (∀ (r : Nat) (rest : List Nat), b.asks = r :: rest →
        (getBestBidAsk b).2.1 = (b.getLevel r).price) := by
  rcases hb : b.bids with _ | ⟨br, btl⟩ <;> rcases ha : b.asks with _ | ⟨ar, atl⟩ <;>
    simp [getBestBidAsk, hb, ha]

/-- Witness for C8: the amended description instantiated on the one-bid
book. -/
theorem C8_shared_flag_witness :
    (getBestBidAsk oneBidBook).2.2 = true
    ∧ (getBestBidAsk oneBidBook).2.1 = 0
    ∧ (getBestBidAsk oneBidBook).1 = (oneBidBook.getLevel 1).price := by
  obtain ⟨h1, _, h3, h4, _⟩ := C8_shared_flag oneBidBook
  exact ⟨h1.mpr (Or.inl (by decide)), h4 (by decide), h3 1 [] (by decide)⟩

theorem depthWalk_eq (b : Book) (l : List Nat) :
    ∀ n : Nat, depthWalk b l n = ((l.map b.getLevel).filter (fun lv => !lv.isEmpty)).take n := by
  induction l with
  | nil => intro n; simp [depthWalk]
  | cons r rest ih =>
    intro n
    cases n with
    | zero => rfl
    | succ m =>
      rw [depthWalk]
      rw [if_neg (Nat.succ_ne_zero m)]
      by_cases h : (b.getLevel r).isEmpty
      · simp [h, ih]
      · simp [h, ih]

/-- C9 counterexample: after placing bids at 50, 60, 70 the bid heap array
is `[70, 50, 60]` by price, and `GetDepth(3)` returns the three levels in
exactly that order — not in descending-price priority order. -/
theorem C9_depth_not_priority_order :
    ((getDepth threeBidsBook 3).1.map Level.price) = [70, 50, 60]
    ∧ ¬ List.Sorted (fun a b : ℤ => a ≥ b)
        ((getDepth threeBidsBook 3).1.map Level.price) := by
  constructor <;> decide

/-- C9 as amended: `GetDepth(n)` returns, for each side, the first `n`
non-empty level snapshots in the order the levels appear in the heap's
underlying array (only the array head is guaranteed best), skipping empty
levels without counting them toward `n`, without mutating the book; each
snapshot carries the level's price, cached aggregate quantity and order
list (whose length is the resting-order count). -/
theorem C9_depth_walk (b : Book) (n : Nat) :
    getDepth b n
      = (((b.bids.map b.getLevel).filter (fun lv => !lv.isEmpty)).take n,
         ((b.asks.map b.getLevel).filter (fun lv => !lv.isEmpty)).take n) := by
  unfold getDepth
  rw [depthWalk_eq, depthWalk_eq]

/-- C10: cancelling an order ID that is absent from the resting-order index
returns `false` and leaves the whole book state unchanged. -/
theorem C10_cancel_absent (b : Book) (orderID : String)
    (h : alLookup b.unfilled orderID = none) :
    cancelOrder b orderID = .ok (b, false) := by
  unfold cancelOrder
  rw [h]

/-- Witness for C10: cancelling an unknown ID on the empty book. -/
theorem C10_cancel_absent_witness :
    cancelOrder emptyBook "zzz" = .ok (emptyBook, false) :=
  C10_cancel_absent emptyBook "zzz" (by decide)

end Exch
